import Mathlib

/-!
Shallow embedding of the quorum-vault-auto-unsealer core (src/main.js).

The program talks to the outside world only through HTTP calls and one file
read.  We model that world as an `Env` of deterministic oracles: the JWT file
read, the login endpoint, the key-value fetch endpoint, the per-target
seal-status probe, and the per-target unseal endpoint (whose answer may depend
on the keys already submitted to that target).  Each embedded function returns,
next to its result, the list of observable `Event`s it performed, so claims
such as "no key fetch occurs" or "keys are submitted in this exact order" are
statements about the trace.
-/

namespace AutoUnsealer

/-- JS `x || d` on an optional numeric field: `0`, like an absent field, is
falsy, so both fall back to the default (models `statusRes.data.t || 3`). -/
def jsOrNat : Option Nat → Nat → Nat
  | none, d => d
  | some n, d => if n = 0 then d else n

/-- JS `x || d` on an optional string: the empty string, like an absent
variable, is falsy (models `process.env.TARGET_VAULT_ADDRS || ''`). -/
def jsOrStr : Option String → String → String
  | none, d => d
  | some s, d => if s = "" then d else s

/-- Response of `GET {target}/v1/sys/seal-status`: the code reads
`statusRes.data.sealed` and `statusRes.data.t` (`t` may be absent). -/
structure SealStatus where
  sealedFlag : Bool
  t : Option Nat
  deriving Repr, DecidableEq

/-- Response of `PUT {target}/v1/sys/unseal`: the code branches only on
`unsealRes.data.sealed`; `progress` and `t` are read for logging. -/
structure UnsealResp where
  sealedFlag : Bool
  progress : Option Nat
  t : Option Nat
  deriving Repr, DecidableEq

/-- Login response body.  `auth = none` models `response.data.auth` being
absent (reading `.client_token` of it throws); `auth = some none` models a
present `auth` object without a `client_token` field. -/
structure LoginResp where
  auth : Option (Option String)
  deriving Repr, DecidableEq

/-- Key-store response body.  `dataData = none` models `response.data.data`
being absent (reading `.data` of it throws); `dataData = some none` models
`response.data.data.data` absent (`!keys` is true); `some (some entries)` is
the keys object with its entries in insertion order (`Object.values` returns
the second components in that order). -/
structure KeysResp where
  dataData : Option (Option (List (String × String)))
  deriving Repr, DecidableEq

/-- The deterministic outside world one run interacts with. -/
structure Env where
  jwtRead : Except String String
  loginResp : String → Except String LoginResp
  keysResp : String → Except String KeysResp
  probe : String → Except String SealStatus
  unsealPut : String → List String → String → Except String UnsealResp

/-- Observable actions of a run, in order. -/
inductive Event
  | probe (tgt : String)
  | readJwt
  | login
  | fetchKeys
  | submit (tgt : String) (key : String)
  deriving Repr, DecidableEq

/-- Classification of how one target reconciliation (`checkAndUnseal`) ends;
the `failed*` constructors label the paths that land in its catch block. -/
inductive Outcome
  | alreadyUnsealed
  | unsealed
  | partSubmitted
  | failedProbe (e : String)
  | failedKeyFetch (e : String)
  | failedSubmit (e : String)
  deriving Repr, DecidableEq

/-- `getPrimaryVaultToken` (main.js lines 37-58): read the JWT file, POST the
login endpoint, fail when the response lacks a (truthy) client token. -/
def getPrimaryVaultToken (env : Env) : List Event × Except String String :=
  match env.jwtRead with
  | .error e => ([Event.readJwt], .error e)
  | .ok jwt =>
    match env.loginResp jwt with
    | .error e => ([Event.readJwt, Event.login], .error e)
    | .ok resp =>
      match resp.auth with
      | none => ([Event.readJwt, Event.login],
          .error "TypeError: cannot read client_token of undefined")
      | some none => ([Event.readJwt, Event.login],
          .error "Client token not found in login response.")
      | some (some tok) =>
        if tok = "" then
          ([Event.readJwt, Event.login],
            .error "Client token not found in login response.")
        else ([Event.readJwt, Event.login], .ok tok)

/-- The extraction step of `getUnsealKeys` (main.js lines 77-84): second-level
unwrap `response.data.data.data`, fail when missing or empty, else return
`Object.values(keys)` in order. -/
def extractKeys (r : KeysResp) : Except String (List String) :=
  match r.dataData with
  | none => .error "TypeError: cannot read data of undefined"
  | some none => .error "No unseal keys found or path is incorrect."
  | some (some entries) =>
    if entries.length = 0 then .error "No unseal keys found or path is incorrect."
    else .ok (entries.map Prod.snd)

/-- `getUnsealKeys` (main.js lines 64-89): login, GET the configured key path,
extract the nested values; any error propagates. -/
def getUnsealKeys (env : Env) : List Event × Except String (List String) :=
  match getPrimaryVaultToken env with
  | (tr, .error e) => (tr, .error e)
  | (tr, .ok token) =>
    match env.keysResp token with
    | .error e => (tr ++ [Event.fetchKeys], .error e)
    | .ok resp => (tr ++ [Event.fetchKeys], extractKeys resp)

/-- The submission loop of `checkAndUnseal` (main.js lines 107-119): submit
keys one at a time; break with `unsealed` as soon as a response reports
`sealed` false; a throwing PUT aborts (caught at the target boundary); running
out of keys ends the loop normally (PartiallySubmitted).  `prev` is the list
of keys already submitted to this target in this run. -/
def submitLoop (env : Env) (tgt : String) : List String → List String → List Event × Outcome
  | _, [] => ([], Outcome.partSubmitted)
  | prev, key :: rest =>
    match env.unsealPut tgt prev key with
    | .error e => ([Event.submit tgt key], Outcome.failedSubmit e)
    | .ok resp =>
      if resp.sealedFlag then
        let r := submitLoop env tgt (prev ++ [key]) rest
        (Event.submit tgt key :: r.1, r.2)
      else ([Event.submit tgt key], Outcome.unsealed)

/-- `checkAndUnseal` (main.js lines 95-131): probe the target; if unsealed,
done; if sealed, fetch keys (any fetch error ends the run with no
submission), take `t || 3` keys from the front, and run the submission loop.
All errors are caught inside, so the function is total. -/
def checkAndUnseal (env : Env) (tgt : String) : List Event × Outcome :=
  match env.probe tgt with
  | .error e => ([Event.probe tgt], Outcome.failedProbe e)
  | .ok st =>
    if st.sealedFlag then
      let fetch := getUnsealKeys env
      match fetch.2 with
      | .error e => (Event.probe tgt :: fetch.1, Outcome.failedKeyFetch e)
      | .ok ks =>
        let r := submitLoop env tgt [] (ks.take (jsOrNat st.t 3))
        (Event.probe tgt :: (fetch.1 ++ r.1), r.2)
    else ([Event.probe tgt], Outcome.alreadyUnsealed)

/-- Result of one sweep: whether the empty-config warning fired, and the
per-target runs in configuration order. -/
structure SweepResult where
  warned : Bool
  runs : List (String × (List Event × Outcome))

/-- `pollVaultNodes` (main.js lines 136-145): warn and do nothing on an empty
target list, else reconcile every configured target. -/
def pollVaultNodes (env : Env) (targets : List String) : SweepResult :=
  if targets.length = 0 then { warned := true, runs := [] }
  else { warned := false, runs := targets.map (fun t => (t, checkAndUnseal env t)) }

/-- JS `String.prototype.split` with a one-character separator, on the
character list: splitting the empty string gives `[""]`, adjacent separators
give empty fields, leading and trailing separators give empty fields at the
ends. -/
def splitCharList (sep : Char) : List Char → List (List Char)
  | [] => [[]]
  | c :: cs =>
    let r := splitCharList sep cs
    if c = sep then [] :: r
    else
      match r with
      | [] => [[c]]
      | h :: t => (c :: h) :: t

/-- The parsing in `config.targetVaultAddrs` (main.js line 14):
`split(',')` then `filter(addr => addr)` (keep non-empty entries). -/
def parseTargetAddrs (s : String) : List String :=
  ((splitCharList ',' s.data).map (fun l => String.mk l)).filter (fun a => a != "")

/-- `config.targetVaultAddrs` including the `|| ''` default for an unset
environment variable. -/
def targetVaultAddrs (envVar : Option String) : List String :=
  parseTargetAddrs (jsOrStr envVar "")

/-- The keys a trace submitted, in order. -/
def submittedKeys (tr : List Event) : List String :=
  tr.filterMap (fun e => match e with
    | Event.submit _ k => some k
    | _ => none)

/-- Events that are calls into the Key Source Client (login POST, JWT read,
key fetch GET). -/
def Event.isKeySourceCall : Event → Bool
  | Event.readJwt => true
  | Event.login => true
  | Event.fetchKeys => true
  | _ => false

/-- Outcomes that count as failures (the catch-block paths). -/
def Outcome.isFailed : Outcome → Bool
  | Outcome.failedProbe _ => true
  | Outcome.failedKeyFetch _ => true
  | Outcome.failedSubmit _ => true
  | _ => false

/-- The response the unseal endpoint gives to the `i`-th submission when the
keys of `keys` are submitted in order from an empty history: `b` is its
`sealed` field. -/
def respSealedIs (env : Env) (tgt : String) (keys : List String) (i : Nat) (b : Bool) : Prop :=
  ∃ r, env.unsealPut tgt (keys.take i) (keys.getD i "") = Except.ok r ∧ r.sealedFlag = b

/-- Replace the probe oracle, keeping the rest of the world fixed. -/
def setProbe (env : Env) (st : SealStatus) : Env :=
  { env with probe := fun _ => Except.ok st }

/-- A healthy concrete world for witnesses: targets probe as sealed with
threshold 3, the store holds five keys, and a target reports unsealed on the
third submission (the spec scenario of section 8). -/
def envScenario : Env where
  jwtRead := Except.ok "jwt"
  loginResp := fun _ => Except.ok { auth := some (some "tok") }
  keysResp := fun _ => Except.ok
    { dataData := some (some [("key1", "a"), ("key2", "b"), ("key3", "c"), ("key4", "d"), ("key5", "e")]) }
  probe := fun _ => Except.ok { sealedFlag := true, t := some 3 }
  unsealPut := fun _ prev _ =>
    Except.ok { sealedFlag := decide (prev.length < 2), progress := some prev.length, t := some 3 }

/-- World whose targets probe as already unsealed. -/
def envUnsealedTarget : Env :=
  { envScenario with probe := fun _ => Except.ok { sealedFlag := false, t := some 3 } }

/-- World where the JWT credential file is unreadable, so the key fetch
fails inside its login step. -/
def envNoJwt : Env :=
  { envScenario with jwtRead := Except.error "ENOENT: no such file or directory" }

/-- World where the target `bad` is unreachable and every other target probes
as already unsealed. -/
def envProbeDown : Env :=
  { envScenario with probe := fun t =>
      if t = "bad" then Except.error "ECONNREFUSED" else Except.ok ⟨false, some 3⟩ }

/-- World holding only two keys whose targets stay sealed no matter what is
submitted (the PartiallySubmitted scenario of section 8). -/
def envStubborn : Env :=
  { envScenario with
      keysResp := fun _ => Except.ok ⟨some (some [("key1", "a"), ("key2", "b")])⟩,
      unsealPut := fun _ prev _ => Except.ok ⟨true, some prev.length, some 3⟩ }

/-- World whose key path resolves to no key collection. -/
def envNoKeys : Env :=
  { envScenario with keysResp := fun _ => Except.ok { dataData := some none } }

/-! ### Helper lemmas about traces and the submission loop -/

theorem submittedKeys_append (a b : List Event) :
    submittedKeys (a ++ b) = submittedKeys a ++ submittedKeys b := by
  simp [submittedKeys, List.filterMap_append]

theorem submittedKeys_map_submit (tgt : String) (l : List String) :
    submittedKeys (l.map (Event.submit tgt)) = l := by
  induction l with
  | nil => rfl
  | cons k rest ih =>
    simp only [List.map_cons]
    show k :: submittedKeys (rest.map (Event.submit tgt)) = k :: rest
    rw [ih]

theorem getPrimaryVaultToken_fst (env : Env) :
    (getPrimaryVaultToken env).1 = [Event.readJwt] ∨
    (getPrimaryVaultToken env).1 = [Event.readJwt, Event.login] := by
  rcases hj : env.jwtRead with e | jwt
  · left; simp [getPrimaryVaultToken, hj]
  · rcases hl : env.loginResp jwt with e | resp
    · right; simp [getPrimaryVaultToken, hj, hl]
    · rcases hauth : resp.auth with _ | inner
      · right; simp [getPrimaryVaultToken, hj, hl, hauth]
      · rcases inner with _ | tok
        · right; simp [getPrimaryVaultToken, hj, hl, hauth]
        · by_cases htok : tok = "" <;>
            · right; simp [getPrimaryVaultToken, hj, hl, hauth, htok]

theorem getUnsealKeys_fst (env : Env) :
    (getUnsealKeys env).1 = (getPrimaryVaultToken env).1 ∨
    (getUnsealKeys env).1 = (getPrimaryVaultToken env).1 ++ [Event.fetchKeys] := by
  rcases hpt : getPrimaryVaultToken env with ⟨tr, res⟩
  rcases res with e | tok
  · left; simp [getUnsealKeys, hpt]
  · rcases hk : env.keysResp tok with e | resp
    · right; simp [getUnsealKeys, hpt, hk]
    · right; simp [getUnsealKeys, hpt, hk]

theorem submittedKeys_getUnsealKeys (env : Env) :
    submittedKeys (getUnsealKeys env).1 = [] := by
  rcases getUnsealKeys_fst env with h | h <;>
    rcases getPrimaryVaultToken_fst env with h2 | h2 <;>
      rw [h, h2] <;> rfl

theorem checkAndUnseal_probe_error (env : Env) (tgt : String) (e : String)
    (hp : env.probe tgt = Except.error e) :
    checkAndUnseal env tgt = ([Event.probe tgt], Outcome.failedProbe e) := by
  unfold checkAndUnseal
  rw [hp]

theorem checkAndUnseal_not_sealed (env : Env) (tgt : String) (st : SealStatus)
    (hp : env.probe tgt = Except.ok st) (hs : st.sealedFlag = false) :
    checkAndUnseal env tgt = ([Event.probe tgt], Outcome.alreadyUnsealed) := by
  unfold checkAndUnseal
  rw [hp]
  simp [hs]

theorem checkAndUnseal_fetch_error (env : Env) (tgt : String) (st : SealStatus) (e : String)
    (hp : env.probe tgt = Except.ok st) (hs : st.sealedFlag = true)
    (he : (getUnsealKeys env).2 = Except.error e) :
    checkAndUnseal env tgt =
      (Event.probe tgt :: (getUnsealKeys env).1, Outcome.failedKeyFetch e) := by
  unfold checkAndUnseal
  rw [hp]
  simp [hs, he]

theorem checkAndUnseal_sealed_ok (env : Env) (tgt : String) (st : SealStatus) (ks : List String)
    (hp : env.probe tgt = Except.ok st) (hs : st.sealedFlag = true)
    (hk : (getUnsealKeys env).2 = Except.ok ks) :
    checkAndUnseal env tgt =
      (Event.probe tgt ::
        ((getUnsealKeys env).1 ++ (submitLoop env tgt [] (ks.take (jsOrNat st.t 3))).1),
       (submitLoop env tgt [] (ks.take (jsOrNat st.t 3))).2) := by
  unfold checkAndUnseal
  rw [hp]
  simp [hs, hk]

theorem submitLoop_all_sealed (env : Env) (tgt : String)
    (hall : ∀ prev key, ∃ r, env.unsealPut tgt prev key = Except.ok r ∧ r.sealedFlag = true) :
    ∀ (keys prev : List String),
      submitLoop env tgt prev keys = (keys.map (Event.submit tgt), Outcome.partSubmitted) := by
  intro keys
  induction keys with
  | nil => intro prev; rfl
  | cons key rest ih =>
    intro prev
    obtain ⟨r, hr, hsl⟩ := hall prev key
    simp [submitLoop, hr, hsl, ih (prev ++ [key])]

/-- Characterization of the submission loop when every PUT yields a response:
some number `m` of keys is submitted, they are exactly the first `m` keys in
order, every response before the last reported still-sealed, and the loop ends
either `unsealed` (the last response reported not sealed) or `partSubmitted`
(all keys submitted, every response reported still-sealed). -/
theorem submitLoop_char (env : Env) (tgt : String)
    (hok : ∀ prev key, ∃ r, env.unsealPut tgt prev key = Except.ok r) :
    ∀ (keys prev : List String),
    ∃ m, m ≤ keys.length ∧
      (submitLoop env tgt prev keys).1 = (keys.take m).map (Event.submit tgt) ∧
      (∀ i, i + 1 < m →
        ∃ r, env.unsealPut tgt (prev ++ keys.take i) (keys.getD i "") = Except.ok r ∧
          r.sealedFlag = true) ∧
      (((submitLoop env tgt prev keys).2 = Outcome.unsealed ∧ 0 < m ∧
          ∃ r, env.unsealPut tgt (prev ++ keys.take (m - 1)) (keys.getD (m - 1) "") = Except.ok r ∧
            r.sealedFlag = false) ∨
       ((submitLoop env tgt prev keys).2 = Outcome.partSubmitted ∧ m = keys.length ∧
          ∀ i, i < m →
            ∃ r, env.unsealPut tgt (prev ++ keys.take i) (keys.getD i "") = Except.ok r ∧
              r.sealedFlag = true)) := by
  intro keys
  induction keys with
  | nil =>
    intro prev
    refine ⟨0, Nat.le_refl 0, rfl, ?_, Or.inr ⟨rfl, rfl, ?_⟩⟩
    · intro i hi; exfalso; omega
    · intro i hi; exfalso; omega
  | cons key rest ih =>
    intro prev
    obtain ⟨r, hr⟩ := hok prev key
    by_cases hseal : r.sealedFlag = true
    · have hstep : submitLoop env tgt prev (key :: rest) =
          (Event.submit tgt key :: (submitLoop env tgt (prev ++ [key]) rest).1,
           (submitLoop env tgt (prev ++ [key]) rest).2) := by
        simp [submitLoop, hr, hseal]
      obtain ⟨m, hm, htr, hmid, hend⟩ := ih (prev ++ [key])
      refine ⟨m + 1, by simpa using Nat.succ_le_succ hm, ?_, ?_, ?_⟩
      · rw [hstep, List.take_succ_cons, List.map_cons]
        simpa using htr
      · intro i hi
        cases i with
        | zero => exact ⟨r, by simpa using hr, hseal⟩
        | succ j =>
          obtain ⟨r2, hr2, hs2⟩ := hmid j (by omega)
          exact ⟨r2, by simpa [List.take_succ_cons, List.append_assoc] using hr2, hs2⟩
      · rcases hend with ⟨ho, hpos, r2, hr2, hs2⟩ | ⟨ho, hlen, hall⟩
        · left
          obtain ⟨m2, rfl⟩ : ∃ m2, m = m2 + 1 := ⟨m - 1, by omega⟩
          refine ⟨by rw [hstep]; exact ho, Nat.succ_pos _, r2, ?_, hs2⟩
          simpa [List.take_succ_cons, List.append_assoc, Nat.add_sub_cancel] using hr2
        · right
          refine ⟨by rw [hstep]; exact ho, by simp [hlen], ?_⟩
          intro i hi
          cases i with
          | zero => exact ⟨r, by simpa using hr, hseal⟩
          | succ j =>
            obtain ⟨r2, hr2, hs2⟩ := hall j (by omega)
            exact ⟨r2, by simpa [List.take_succ_cons, List.append_assoc] using hr2, hs2⟩
    · have hseal' : r.sealedFlag = false := by
        cases h : r.sealedFlag
        · rfl
        · exact absurd h hseal
      have hstep : submitLoop env tgt prev (key :: rest) =
          ([Event.submit tgt key], Outcome.unsealed) := by
        simp [submitLoop, hr, hseal']
      refine ⟨1, Nat.succ_le_succ (Nat.zero_le _), ?_, ?_,
        Or.inl ⟨by rw [hstep], Nat.one_pos, r, by simpa using hr, hseal'⟩⟩
      · rw [hstep]; simp
      · intro i hi; exfalso; omega

theorem submittedKeys_probe_cons (tgt : String) (l : List Event) :
    submittedKeys (Event.probe tgt :: l) = submittedKeys l := rfl

/-- Shared helper: a sealed target whose every unseal response still reports
sealed gets every selected key (the first `t || 3` fetched keys) submitted and
the run ends `partSubmitted`. -/
theorem checkAndUnseal_all_sealed_submits
    (env : Env) (tgt : String) (st : SealStatus) (ks : List String)
    (hp : env.probe tgt = Except.ok st) (hs : st.sealedFlag = true)
    (hk : (getUnsealKeys env).2 = Except.ok ks)
    (hall : ∀ prev key, ∃ r, env.unsealPut tgt prev key = Except.ok r ∧ r.sealedFlag = true) :
    (checkAndUnseal env tgt).2 = Outcome.partSubmitted ∧
    submittedKeys (checkAndUnseal env tgt).1 = ks.take (jsOrNat st.t 3) := by
  have h := checkAndUnseal_sealed_ok env tgt st ks hp hs hk
  have hloop := submitLoop_all_sealed env tgt hall (ks.take (jsOrNat st.t 3)) []
  constructor
  · rw [h]
    show (submitLoop env tgt [] (ks.take (jsOrNat st.t 3))).2 = Outcome.partSubmitted
    rw [hloop]
  · rw [h]
    show submittedKeys (Event.probe tgt ::
      ((getUnsealKeys env).1 ++ (submitLoop env tgt [] (ks.take (jsOrNat st.t 3))).1)) = _
    rw [hloop, submittedKeys_probe_cons, submittedKeys_append, submittedKeys_getUnsealKeys]
    show [] ++ submittedKeys ((ks.take (jsOrNat st.t 3)).map (Event.submit tgt)) = _
    rw [List.nil_append, submittedKeys_map_submit]

/-! ### The claims -/

/-- C1: for every target whose probe reports sealed=false, `checkAndUnseal`
returns with outcome AlreadyUnsealed and its run is exactly the one probe:
no JWT read, no login, no key fetch (no Key Source Client call at all), and
zero unseal submissions. -/
theorem checkAndUnseal_unsealed_probe_no_keysource
    (env : Env) (tgt : String) (st : SealStatus)
    (hp : env.probe tgt = Except.ok st) (hs : st.sealedFlag = false) :
    checkAndUnseal env tgt = ([Event.probe tgt], Outcome.alreadyUnsealed) ∧
    (checkAndUnseal env tgt).1.filter Event.isKeySourceCall = [] ∧
    submittedKeys (checkAndUnseal env tgt).1 = [] := by
  have h := checkAndUnseal_not_sealed env tgt st hp hs
  refine ⟨h, ?_, ?_⟩ <;> rw [h] <;> rfl

/-- Witness for C1 on a concrete world whose targets probe unsealed. -/
theorem checkAndUnseal_unsealed_probe_no_keysource_witness :
    checkAndUnseal envUnsealedTarget "https://v1:8200" =
      ([Event.probe "https://v1:8200"], Outcome.alreadyUnsealed) ∧
    (checkAndUnseal envUnsealedTarget "https://v1:8200").1.filter Event.isKeySourceCall = [] ∧
    submittedKeys (checkAndUnseal envUnsealedTarget "https://v1:8200").1 = [] :=
  checkAndUnseal_unsealed_probe_no_keysource envUnsealedTarget "https://v1:8200"
    ⟨false, some 3⟩ rfl rfl

/-- C3: for every sealed target, a failing key fetch (including a failure of
its internal login) ends the run with outcome Failed(key-fetch-error) and zero
unseal submissions. -/
theorem checkAndUnseal_keyfetch_failure_no_submissions
    (env : Env) (tgt : String) (st : SealStatus) (e : String)
    (hp : env.probe tgt = Except.ok st) (hs : st.sealedFlag = true)
    (he : (getUnsealKeys env).2 = Except.error e) :
    (checkAndUnseal env tgt).2 = Outcome.failedKeyFetch e ∧
    submittedKeys (checkAndUnseal env tgt).1 = [] := by
  have h := checkAndUnseal_fetch_error env tgt st e hp hs he
  constructor
  · rw [h]
  · rw [h]
    show submittedKeys (Event.probe tgt :: (getUnsealKeys env).1) = []
    rw [submittedKeys_probe_cons, submittedKeys_getUnsealKeys]

/-- Witness for C3 on a concrete world whose JWT file is unreadable, so the
key fetch fails inside its login. -/
theorem checkAndUnseal_keyfetch_failure_no_submissions_witness :
    (checkAndUnseal envNoJwt "https://v1:8200").2 =
      Outcome.failedKeyFetch "ENOENT: no such file or directory" ∧
    submittedKeys (checkAndUnseal envNoJwt "https://v1:8200").1 = [] :=
  checkAndUnseal_keyfetch_failure_no_submissions envNoJwt "https://v1:8200"
    ⟨true, some 3⟩ "ENOENT: no such file or directory" rfl rfl rfl

/-- C4: a failing run on one target never prevents the sweep from reconciling
every other configured target: the sweep still visits the whole configured
list in order, and every target's run appears in it (the sweep is a total
function, so no error escapes it). -/
theorem pollVaultNodes_isolates_target_failures
    (env : Env) (ts : List String) (a b : String)
    (ha : a ∈ ts) (hb : b ∈ ts)
    (hfail : (checkAndUnseal env a).2.isFailed = true) :
    (pollVaultNodes env ts).runs.map Prod.fst = ts ∧
    (b, checkAndUnseal env b) ∈ (pollVaultNodes env ts).runs := by
  have hne : ts.length ≠ 0 := by
    have := List.length_pos.mpr (List.ne_nil_of_mem ha)
    omega
  constructor
  · unfold pollVaultNodes
    rw [if_neg hne]
    simp [Function.comp_def]
  · unfold pollVaultNodes
    rw [if_neg hne]
    exact List.mem_map_of_mem _ hb

/-- Witness for C4: target `bad` is unreachable (its run fails) while target
`good` is still reconciled by the same sweep. -/
theorem pollVaultNodes_isolates_target_failures_witness :
    (pollVaultNodes envProbeDown ["bad", "good"]).runs.map Prod.fst = ["bad", "good"] ∧
    ("good", checkAndUnseal envProbeDown "good") ∈ (pollVaultNodes envProbeDown ["bad", "good"]).runs :=
  pollVaultNodes_isolates_target_failures envProbeDown ["bad", "good"] "bad" "good"
    (by decide) (by decide) (by decide)

/-- C5: a target whose probe fails ends with outcome Failed(unreachable); its
run is exactly the failed probe, so the Key Source Client is called zero times
and nothing is submitted; and the failure is target-local: any other
configured target is still reconciled by the sweep. -/
theorem checkAndUnseal_probe_failure_local
    (env : Env) (tgt : String) (e : String) (ts : List String) (b : String)
    (hp : env.probe tgt = Except.error e) (hb : b ∈ ts) :
    checkAndUnseal env tgt = ([Event.probe tgt], Outcome.failedProbe e) ∧
    (checkAndUnseal env tgt).1.filter Event.isKeySourceCall = [] ∧
    submittedKeys (checkAndUnseal env tgt).1 = [] ∧
    (b, checkAndUnseal env b) ∈ (pollVaultNodes env ts).runs := by
  have h := checkAndUnseal_probe_error env tgt e hp
  have hne : ts.length ≠ 0 := by
    have := List.length_pos.mpr (List.ne_nil_of_mem hb)
    omega
  refine ⟨h, by rw [h]; rfl, by rw [h]; rfl, ?_⟩
  unfold pollVaultNodes
  rw [if_neg hne]
  exact List.mem_map_of_mem _ hb

/-- Witness for C5: target `bad` is unreachable, zero key-source calls, and
`good` is still swept. -/
theorem checkAndUnseal_probe_failure_local_witness :
    checkAndUnseal envProbeDown "bad" = ([Event.probe "bad"], Outcome.failedProbe "ECONNREFUSED") ∧
    (checkAndUnseal envProbeDown "bad").1.filter Event.isKeySourceCall = [] ∧
    submittedKeys (checkAndUnseal envProbeDown "bad").1 = [] ∧
    ("good", checkAndUnseal envProbeDown "good") ∈ (pollVaultNodes envProbeDown ["bad", "good"]).runs :=
  checkAndUnseal_probe_failure_local envProbeDown "bad" "ECONNREFUSED" ["bad", "good"] "good"
    rfl (by decide)

/-- C8: on an empty configured target list the sweep only warns: it runs no
target at all, hence performs no probe, no key fetch, and no submission. -/
theorem pollVaultNodes_empty_noop (env : Env) :
    pollVaultNodes env [] = { warned := true, runs := [] } := rfl

/-- C2: for a sealed target with probed threshold `T` and fetched keys `ks`,
when every PUT yields a response, the submitted keys are exactly a prefix
(`take m`) of the first `min T |ks|` fetched keys in fetch order (no sorting,
deduplication or reordering), one at a time; every response before the last
still reported sealed, and the run stops with outcome Unsealed exactly when
the last response reported sealed=false, else it submits all selected keys
and ends PartiallySubmitted. -/
theorem checkAndUnseal_submits_in_fetch_order_until_unsealed
    (env : Env) (tgt : String) (st : SealStatus) (T : Nat) (ks : List String)
    (hp : env.probe tgt = Except.ok st) (hs : st.sealedFlag = true)
    (ht : st.t = some T) (hT : T ≠ 0)
    (hk : (getUnsealKeys env).2 = Except.ok ks)
    (hok : ∀ prev key, ∃ r, env.unsealPut tgt prev key = Except.ok r) :
    ∃ m, m ≤ min T ks.length ∧
      submittedKeys (checkAndUnseal env tgt).1 = (ks.take T).take m ∧
      (∀ i, i + 1 < m → respSealedIs env tgt (ks.take T) i true) ∧
      (((checkAndUnseal env tgt).2 = Outcome.unsealed ∧ 0 < m ∧
          respSealedIs env tgt (ks.take T) (m - 1) false) ∨
       ((checkAndUnseal env tgt).2 = Outcome.partSubmitted ∧ m = (ks.take T).length ∧
          ∀ i, i < m → respSealedIs env tgt (ks.take T) i true)) := by
  have hjs : jsOrNat st.t 3 = T := by
    rw [ht]
    simp [jsOrNat, hT]
  have h := checkAndUnseal_sealed_ok env tgt st ks hp hs hk
  rw [hjs] at h
  obtain ⟨m, hm, htr, hmid, hend⟩ := submitLoop_char env tgt hok (ks.take T) []
  simp only [respSealedIs]
  refine ⟨m, ?_, ?_, ?_, ?_⟩
  · simpa [List.length_take] using hm
  · rw [h]
    show submittedKeys (Event.probe tgt ::
      ((getUnsealKeys env).1 ++ (submitLoop env tgt [] (ks.take T)).1)) = _
    rw [submittedKeys_probe_cons, submittedKeys_append, submittedKeys_getUnsealKeys,
      htr, submittedKeys_map_submit, List.nil_append]
  · intro i hi
    obtain ⟨r2, hr2, hs2⟩ := hmid i hi
    exact ⟨r2, by simpa using hr2, hs2⟩
  · rcases hend with ⟨ho, hpos, r2, hr2, hs2⟩ | ⟨ho, hlen, hall⟩
    · left
      refine ⟨?_, hpos, r2, by simpa using hr2, hs2⟩
      rw [h]
      exact ho
    · right
      refine ⟨?_, hlen, ?_⟩
      · rw [h]
        exact ho
      · intro i hi
        obtain ⟨r2, hr2, hs2⟩ := hall i hi
        exact ⟨r2, by simpa using hr2, hs2⟩

/-- Witness for C2: the section-8 scenario world (threshold 3, five fetched
keys, the third submission unseals). -/
theorem checkAndUnseal_submits_in_fetch_order_until_unsealed_witness :
    ∃ m, m ≤ min 3 (["a", "b", "c", "d", "e"] : List String).length ∧
      submittedKeys (checkAndUnseal envScenario "t1").1 =
        ((["a", "b", "c", "d", "e"] : List String).take 3).take m ∧
      (∀ i, i + 1 < m → respSealedIs envScenario "t1" ((["a", "b", "c", "d", "e"] : List String).take 3) i true) ∧
      (((checkAndUnseal envScenario "t1").2 = Outcome.unsealed ∧ 0 < m ∧
          respSealedIs envScenario "t1" ((["a", "b", "c", "d", "e"] : List String).take 3) (m - 1) false) ∨
       ((checkAndUnseal envScenario "t1").2 = Outcome.partSubmitted ∧
          m = ((["a", "b", "c", "d", "e"] : List String).take 3).length ∧
          ∀ i, i < m → respSealedIs envScenario "t1" ((["a", "b", "c", "d", "e"] : List String).take 3) i true)) :=
  checkAndUnseal_submits_in_fetch_order_until_unsealed envScenario "t1"
    ⟨true, some 3⟩ 3 ["a", "b", "c", "d", "e"] rfl rfl rfl (by decide) rfl
    (fun prev key => ⟨⟨decide (prev.length < 2), some prev.length, some 3⟩, rfl⟩)

/-- C6: for a sealed target whose every unseal response still reports sealed,
the selected key set is exhausted: every selected key is submitted, the run
terminates normally with outcome PartiallySubmitted, and that outcome is not a
failure (nothing is thrown out of the run or the sweep). -/
theorem checkAndUnseal_exhausted_partSubmitted
    (env : Env) (tgt : String) (st : SealStatus) (ks : List String)
    (hp : env.probe tgt = Except.ok st) (hs : st.sealedFlag = true)
    (hk : (getUnsealKeys env).2 = Except.ok ks)
    (hall : ∀ prev key, ∃ r, env.unsealPut tgt prev key = Except.ok r ∧ r.sealedFlag = true) :
    (checkAndUnseal env tgt).2 = Outcome.partSubmitted ∧
    submittedKeys (checkAndUnseal env tgt).1 = ks.take (jsOrNat st.t 3) ∧
    (checkAndUnseal env tgt).2.isFailed = false := by
  obtain ⟨h1, h2⟩ := checkAndUnseal_all_sealed_submits env tgt st ks hp hs hk hall
  refine ⟨h1, h2, ?_⟩
  rw [h1]
  rfl

/-- Witness for C6: the section-8 scenario where the store holds only two keys
and the target stays sealed after both. -/
theorem checkAndUnseal_exhausted_partSubmitted_witness :
    (checkAndUnseal envStubborn "t1").2 = Outcome.partSubmitted ∧
    submittedKeys (checkAndUnseal envStubborn "t1").1 =
      (["a", "b"] : List String).take (jsOrNat (some 3) 3) ∧
    (checkAndUnseal envStubborn "t1").2.isFailed = false :=
  checkAndUnseal_exhausted_partSubmitted envStubborn "t1" ⟨true, some 3⟩ ["a", "b"]
    rfl rfl rfl
    (fun prev key => ⟨⟨true, some prev.length, some 3⟩, rfl, rfl⟩)

theorem getUnsealKeys_snd_of_token (env : Env) (tok : String) (r : KeysResp)
    (htok : (getPrimaryVaultToken env).2 = Except.ok tok)
    (hr : env.keysResp tok = Except.ok r) :
    (getUnsealKeys env).2 = extractKeys r := by
  rcases hpt : getPrimaryVaultToken env with ⟨tr, res⟩
  rw [hpt] at htok
  simp only [] at htok
  subst htok
  simp [getUnsealKeys, hpt, hr]

/-- C7: once its login yields a token, `getUnsealKeys` computes exactly the
extraction of the fetched body: it fails whenever the second-level value
collection is missing (malformed response), absent, or empty, and otherwise
returns the collection's values as an ordered sequence. -/
theorem getUnsealKeys_error_conditions
    (env : Env) (tok : String) (r : KeysResp)
    (htok : (getPrimaryVaultToken env).2 = Except.ok tok)
    (hr : env.keysResp tok = Except.ok r) :
    (getUnsealKeys env).2 = extractKeys r ∧
    ((r.dataData = none ∨ r.dataData = some none ∨ r.dataData = some (some [])) →
      ∃ e, (getUnsealKeys env).2 = Except.error e) ∧
    (∀ es, r.dataData = some (some es) → es ≠ [] →
      (getUnsealKeys env).2 = Except.ok (es.map Prod.snd)) := by
  have h := getUnsealKeys_snd_of_token env tok r htok hr
  refine ⟨h, ?_, ?_⟩
  · rintro (hd | hd | hd)
    · exact ⟨"TypeError: cannot read data of undefined", by rw [h]; simp [extractKeys, hd]⟩
    · exact ⟨"No unseal keys found or path is incorrect.", by rw [h]; simp [extractKeys, hd]⟩
    · exact ⟨"No unseal keys found or path is incorrect.", by rw [h]; simp [extractKeys, hd]⟩
  · intro es hd hne
    have hlen : ¬ es.length = 0 := fun h0 => hne (List.length_eq_zero.mp h0)
    rw [h]
    simp [extractKeys, hd, hlen]

/-- Witness for C7: in the healthy world the five key values come back in
store order; in the world whose path has no key collection the fetch fails. -/
theorem getUnsealKeys_error_conditions_witness :
    (getUnsealKeys envScenario).2 =
      Except.ok (([("key1", "a"), ("key2", "b"), ("key3", "c"), ("key4", "d"), ("key5", "e")] :
        List (String × String)).map Prod.snd) ∧
    ∃ e, (getUnsealKeys envNoKeys).2 = Except.error e :=
  ⟨(getUnsealKeys_error_conditions envScenario "tok"
      ⟨some (some [("key1", "a"), ("key2", "b"), ("key3", "c"), ("key4", "d"), ("key5", "e")])⟩
      rfl rfl).2.2
      [("key1", "a"), ("key2", "b"), ("key3", "c"), ("key4", "d"), ("key5", "e")] rfl (by decide),
   (getUnsealKeys_error_conditions envNoKeys "tok" ⟨some none⟩ rfl rfl).2.1 (Or.inr (Or.inl rfl))⟩

theorem submitLoop_setProbe (env : Env) (st : SealStatus) (tgt : String) :
    ∀ (keys prev : List String),
      submitLoop (setProbe env st) tgt prev keys = submitLoop env tgt prev keys := by
  intro keys
  induction keys with
  | nil => intro prev; rfl
  | cons key rest ih =>
    intro prev
    have hu : (setProbe env st).unsealPut = env.unsealPut := rfl
    simp only [submitLoop, hu]
    cases env.unsealPut tgt prev key with
    | error e => rfl
    | ok resp =>
      by_cases hsl : resp.sealedFlag <;> simp [hsl, ih (prev ++ [key])]

/-- C9: the share-count bound `checkAndUnseal` uses is the probed `t` exactly
when `t` is present and non-zero; a probe reporting `t = 0` behaves exactly
like a probe omitting `t`, and both fall back to the conservative default 3
as the bound (observed as the number of keys submitted when the target never
reports unsealed). -/
theorem checkAndUnseal_threshold_default_semantics
    (env : Env) (tgt : String) (ks : List String)
    (hk : (getUnsealKeys env).2 = Except.ok ks)
    (hall : ∀ prev key, ∃ r, env.unsealPut tgt prev key = Except.ok r ∧ r.sealedFlag = true) :
    (∀ n, n ≠ 0 →
      submittedKeys (checkAndUnseal (setProbe env ⟨true, some n⟩) tgt).1 = ks.take n) ∧
    submittedKeys (checkAndUnseal (setProbe env ⟨true, some 0⟩) tgt).1 = ks.take 3 ∧
    submittedKeys (checkAndUnseal (setProbe env ⟨true, none⟩) tgt).1 = ks.take 3 ∧
    checkAndUnseal (setProbe env ⟨true, some 0⟩) tgt =
      checkAndUnseal (setProbe env ⟨true, none⟩) tgt := by
  have hgen : ∀ (st : SealStatus), st.sealedFlag = true →
      submittedKeys (checkAndUnseal (setProbe env st) tgt).1 = ks.take (jsOrNat st.t 3) := by
    intro st hs
    have hk2 : (getUnsealKeys (setProbe env st)).2 = Except.ok ks := hk
    have hall2 : ∀ prev key,
        ∃ r, (setProbe env st).unsealPut tgt prev key = Except.ok r ∧ r.sealedFlag = true := hall
    exact (checkAndUnseal_all_sealed_submits (setProbe env st) tgt st ks rfl hs hk2 hall2).2
  refine ⟨?_, ?_, ?_, ?_⟩
  · intro n hn
    have := hgen ⟨true, some n⟩ rfl
    simpa [jsOrNat, hn] using this
  · simpa [jsOrNat] using hgen ⟨true, some 0⟩ rfl
  · simpa [jsOrNat] using hgen ⟨true, none⟩ rfl
  · have hk0 : (getUnsealKeys (setProbe env ⟨true, some 0⟩)).2 = Except.ok ks := hk
    have hk1 : (getUnsealKeys (setProbe env ⟨true, none⟩)).2 = Except.ok ks := hk
    have h0 := checkAndUnseal_sealed_ok (setProbe env ⟨true, some 0⟩) tgt
      ⟨true, some 0⟩ ks rfl rfl hk0
    have h1 := checkAndUnseal_sealed_ok (setProbe env ⟨true, none⟩) tgt
      ⟨true, none⟩ ks rfl rfl hk1
    have hf0 : getUnsealKeys (setProbe env ⟨true, some 0⟩) = getUnsealKeys env := rfl
    have hf1 : getUnsealKeys (setProbe env ⟨true, none⟩) = getUnsealKeys env := rfl
    rw [h0, h1, hf0, hf1, submitLoop_setProbe, submitLoop_setProbe]
    simp [jsOrNat]

/-- Witness for C9: with two fetched keys and a target that never unseals, a
probed threshold of 1 bounds the submissions to the first key, while
threshold 0 and an absent threshold behave identically and bound them by the
default 3. -/
theorem checkAndUnseal_threshold_default_semantics_witness :
    submittedKeys (checkAndUnseal (setProbe envStubborn ⟨true, some 1⟩) "t9").1 =
      (["a", "b"] : List String).take 1 ∧
    submittedKeys (checkAndUnseal (setProbe envStubborn ⟨true, some 0⟩) "t9").1 =
      (["a", "b"] : List String).take 3 ∧
    submittedKeys (checkAndUnseal (setProbe envStubborn ⟨true, none⟩) "t9").1 =
      (["a", "b"] : List String).take 3 ∧
    checkAndUnseal (setProbe envStubborn ⟨true, some 0⟩) "t9" =
      checkAndUnseal (setProbe envStubborn ⟨true, none⟩) "t9" :=
  have h := checkAndUnseal_threshold_default_semantics envStubborn "t9" ["a", "b"] rfl
    (fun prev key => ⟨⟨true, some prev.length, some 3⟩, rfl, rfl⟩)
  ⟨h.1 1 (by decide), h.2.1, h.2.2.1, h.2.2.2⟩

/-- C10: the comma-separated target-address parsing discards every empty
entry: for every input string the parsed list contains only non-empty
addresses, and an unset or empty variable yields the empty list, which sends
the sweep down its warning no-op path. -/
theorem targetVaultAddrs_parsing
    : (∀ s a, a ∈ parseTargetAddrs s → a ≠ "") ∧
      targetVaultAddrs none = [] ∧
      targetVaultAddrs (some "") = [] ∧
      (∀ env, pollVaultNodes env (targetVaultAddrs none) = { warned := true, runs := [] }) := by
  have h0 : targetVaultAddrs none = [] := by decide
  refine ⟨?_, h0, by decide, fun env => by rw [h0]; rfl⟩
  intro s a ha
  have hb := List.of_mem_filter ha
  simpa using hb

/-- Witness for C10 at concrete inputs: the entry `"a"` of the parse of
`",a,,"` is non-empty, and the unset variable parses to the empty list. -/
theorem targetVaultAddrs_parsing_witness :
    ("a" ≠ "") ∧ targetVaultAddrs none = [] :=
  ⟨targetVaultAddrs_parsing.1 ",a,," "a" (by decide), targetVaultAddrs_parsing.2.1⟩

end AutoUnsealer
